import Mathlib

/-!
Verification of the ChiefOfStaff task scheduling/bucketing and reordering engine.

Shallow embedding conventions:
* Calendar dates (always midnight-normalized `YYYY-MM-DD` values in the source)
  are modelled as integer day numbers with the JS `getDay()` weekday convention
  `weekday d = d mod 7`, `0 = Sunday`, `6 = Saturday` (i.e. day number 0 is a
  Sunday).  Adding one calendar day is `+ 1`; `Date` comparison at midnight is
  integer comparison.  The `formatDateLocal` / `parseDateString` round trips of
  the source are the identity under this representation.
* `null`/absent date fields (and the empty string, which the source coerces to
  `null` via JS falsiness) are `Option.none`.
* Order ranks (JS numbers combined by `(a+b)/2`, `+1`, `-1`) are modelled as
  rationals.
* The ambient clock (`Date.now()`, `new Date().toISOString()`) is passed in as
  an explicit parameter `now`; the ambient date `getToday()` of the browser
  bundle is likewise passed as an explicit parameter where a source function
  reads it.
* The KV document store (an external collaborator per the design) is modelled
  as `Store := String → Option Task`; `kv.get key` is function application and
  `kv.set key v` produces the pointwise-updated function.
-/

namespace ChiefOfStaff

/-- A task record as created and mutated by the server
(`src/unnamed/part_000`, create-task handler lines 222-239). -/
structure Task where
  title : String
  description : String
  status : String
  group : String
  task_type : Option String
  project_id : Option String
  due_date : Option Int
  is_longer_term : Bool
  priority : Option Int
  order_rank : Rat
  completed_at : Option Int
  archived_at : Option Int
  deleted_at : Option Int
  created_at : Int
  updated_at : Int

deriving instance DecidableEq for Task

deriving instance Repr for Task

/-- The KV store keyed by task id (`kv.get ('task:' + id)`), restricted to the
task namespace the scheduling engine touches. -/
def Store : Type := String → Option Task

/-- Embedding of `getDateSection` from `src/src/utils/dateUtils.ts` (lines
49-80).  The source computes `today` by reading the ambient wall clock via
`getToday()`; that ambient value is the explicit parameter `today` here.
Section names are the string literals of the source's `DateSection` union. -/
def getDateSection (dueDate : Option Int) (today : Int) : String :=
  match dueDate with
  | none => "longer-term"
  | some due =>
    if due ≤ today then "today"
    else if today < due ∧ due ≤ today + (if today % 7 = 6 then 7 else 6 - today % 7) then
      "this-week"
    else if today + (if today % 7 = 6 then 7 else 6 - today % 7) < due ∧
        due ≤ today + (if today % 7 = 0 then 7 else 7 - today % 7) + 6 then
      "next-week"
    else "after-next-week"

/-- Embedding of the `validateDateInSection` closure of the reorder handler
(`src/unnamed/part_000` lines 502-534); `today` is the date parsed from the
request's `clientToday`.  The source's `let`-bound `nextSaturday`,
`nextSunday` and `saturdayAfterNextSunday` are inlined. -/
def validateDateInSection (today : Int) (date : Int) (sec : String) : Bool :=
  if sec = "today" then decide (date ≤ today)
  else if sec = "this-week" then
    decide (today < date ∧ date ≤ today + (if today % 7 = 6 then 7 else 6 - today % 7))
  else if sec = "next-week" then
    decide (today + (if today % 7 = 6 then 7 else 6 - today % 7) < date ∧
      date ≤ today + (if today % 7 = 0 then 7 else 7 - today % 7) + 6)
  else if sec = "after-next-week" then
    decide (today + (if today % 7 = 0 then 7 else 7 - today % 7) + 6 < date)
  else false

/-- Embedding of the `getNextUpcomingSunday` closure of the reorder handler
(`src/unnamed/part_000` lines 479-484). -/
def getNextUpcomingSunday (today : Int) : Int :=
  today + (if today % 7 = 0 then 7 else 7 - today % 7)

/-- Embedding of the `getDayAfterSaturdayAfterNextSunday` closure of the
reorder handler (`src/unnamed/part_000` lines 492-499): six days after the
next upcoming Sunday, then one more day. -/
def getDayAfterSaturdayAfterNextSunday (today : Int) : Int :=
  getNextUpcomingSunday today + 6 + 1

/-- Result of the mutating task endpoints: HTTP 404 (`Task not found`),
HTTP 400 (`Missing clientToday parameter`), or the JSON-returned updated
task. -/
inductive ReorderResult where
  | notFound
  | validationError
  | ok (task : Task)

deriving instance DecidableEq for ReorderResult

deriving instance Repr for ReorderResult

/-- Embedding of the order-rank calculation block of the reorder handler
(`src/unnamed/part_000` lines 580-609).  `Date.now()` is the explicit
parameter `now` (milliseconds, cast to the rational rank scale). -/
def computeOrderRank (store : Store) (beforeTaskId afterTaskId : Option String)
    (now : Int) : Rat :=
  match beforeTaskId, afterTaskId with
  | some bid, some aid =>
    match store bid, store aid with
    | some beforeTask, some afterTask =>
      (beforeTask.order_rank + afterTask.order_rank) / 2
    | some beforeTask, none => beforeTask.order_rank + 1
    | none, some afterTask => afterTask.order_rank - 1
    | none, none => (now : Rat)
  | some bid, none =>
    match store bid with
    | some beforeTask => beforeTask.order_rank + 1
    | none => (now : Rat)
  | none, some aid =>
    match store aid with
    | some afterTask => afterTask.order_rank - 1
    | none => (now : Rat)
  | none, none => (now : Rat)

/-- Embedding of the date-assignment block of the reorder handler
(`src/unnamed/part_000` lines 536-578): `personal-focus` preserves the
existing due date; otherwise a neighbor date is inherited when `beforeTaskId`
is supplied, the target section is neither `today` nor `longer-term`, the
neighbor loads with a non-null due date and that date validates into the
target section; otherwise the section-specific default applies (the switch
has no default case, so unknown sections leave `newDueDate` null). -/
def reorderNewDueDate (store : Store) (existingTask : Task)
    (targetSection : String) (beforeTaskId : Option String) (today : Int) :
    Option Int :=
  if targetSection = "personal-focus" then existingTask.due_date
  else
    let inherited : Option Int :=
      match beforeTaskId with
      | some bid =>
        if targetSection ≠ "today" ∧ targetSection ≠ "longer-term" then
          match store bid with
          | some beforeTask =>
            match beforeTask.due_date with
            | some d =>
              if validateDateInSection today d targetSection then some d else none
            | none => none
          | none => none
        else none
      | none => none
    match inherited with
    | some d => some d
    | none =>
      if targetSection = "today" then some today
      else if targetSection = "this-week" then some (today + 1)
      else if targetSection = "next-week" then some (getNextUpcomingSunday today)
      else if targetSection = "after-next-week" then
        some (getDayAfterSaturdayAfterNextSunday today)
      else none

/-- Embedding of the reorder endpoint
(`POST /tasks/:id/reorder`, `src/unnamed/part_000` lines 433-648): task
lookup, `clientToday` validation, date assignment, order-rank calculation and
the single write of the updated record. -/
def reorderTask (store : Store) (id : String) (targetSection : String)
    (beforeTaskId afterTaskId : Option String) (clientToday : Option Int)
    (now : Int) : ReorderResult × Store :=
  match store id with
  | none => (.notFound, store)
  | some existingTask =>
    match clientToday with
    | none => (.validationError, store)
    | some today =>
      let newDueDate := reorderNewDueDate store existingTask targetSection beforeTaskId today
      let newOrderRank := computeOrderRank store beforeTaskId afterTaskId now
      let updatedTask : Task :=
        { existingTask with
          due_date := newDueDate
          is_longer_term := newDueDate.isNone
          order_rank := newOrderRank
          updated_at := now }
      (.ok updatedTask, fun k => if k = id then some updatedTask else store k)

/-- Embedding of the snooze endpoint
(`POST /tasks/:id/snooze`, `src/unnamed/part_000` lines 369-430): the new due
date is one day after the later of `clientToday` and the current due date
(the current due date defaulting to `clientToday` when null). -/
def snoozeTask (store : Store) (id : String) (clientToday : Option Int)
    (now : Int) : ReorderResult × Store :=
  match store id with
  | none => (.notFound, store)
  | some existingTask =>
    match clientToday with
    | none => (.validationError, store)
    | some today =>
      let currentDueDate := existingTask.due_date.getD today
      let newDueDate := max today currentDueDate + 1
      let updatedTask : Task :=
        { existingTask with
          due_date := some newDueDate
          is_longer_term := false
          updated_at := now }
      (.ok updatedTask, fun k => if k = id then some updatedTask else store k)

/-- A partial-update request body for `PUT /tasks/:id`.  `none` models an
absent (`undefined`) field; for the nullable `due_date`, `some none` models an
explicit `null` (or the empty string, which `body.due_date || null`
normalizes to `null`).  Body fields not relevant to the scheduling engine
(`group`, `project_id`, `priority`, ...) are elided; they follow the same
spread-merge as `title`/`description`. -/
structure UpdateBody where
  title : Option String
  description : Option String
  status : Option String
  due_date : Option (Option Int)
  is_longer_term : Option Bool
  order_rank : Option Rat

/-- Embedding of the update endpoint (`PUT /tasks/:id`, `src/unnamed/part_000`
lines 252-294): spread-merge of the body over the existing record (with the
`task_type` backward-compatibility default), then the `is_longer_term` guard
that runs only when the body carries a `due_date` field, then the
`completed_at` adjustment when the body carries a `status` field. -/
def updateTask (store : Store) (id : String) (body : UpdateBody) (now : Int) :
    ReorderResult × Store :=
  match store id with
  | none => (.notFound, store)
  | some existingTask =>
    let merged : Task :=
      { existingTask with
        task_type := some (existingTask.task_type.getD "regular")
        title := body.title.getD existingTask.title
        description := body.description.getD existingTask.description
        status := body.status.getD existingTask.status
        due_date := body.due_date.getD existingTask.due_date
        is_longer_term := body.is_longer_term.getD existingTask.is_longer_term
        order_rank := body.order_rank.getD existingTask.order_rank
        updated_at := now }
    let afterDueGuard : Task :=
      match body.due_date with
      | some d => { merged with due_date := d, is_longer_term := d.isNone }
      | none => merged
    let updatedTask : Task :=
      match body.status with
      | some s =>
        if s = "done" then { afterDueGuard with completed_at := some now }
        else if s = "open" then { afterDueGuard with completed_at := none }
        else afterDueGuard
      | none => afterDueGuard
    (.ok updatedTask, fun k => if k = id then some updatedTask else store k)

lemma getDateSection_some_mem (d today : Int) :
    getDateSection (some d) today = "today" ∨ getDateSection (some d) today = "this-week"
    ∨ getDateSection (some d) today = "next-week"
    ∨ getDateSection (some d) today = "after-next-week" := by
  simp only [getDateSection]
  split_ifs <;> simp

lemma getDateSection_eq_today_iff (d today : Int) :
    getDateSection (some d) today = "today" ↔ d ≤ today := by
  simp only [getDateSection]
  split_ifs <;> first
    | exact iff_of_true rfl (by omega)
    | exact iff_of_false (by decide) (by omega)

lemma getDateSection_eq_thisWeek_iff (d today : Int) :
    getDateSection (some d) today = "this-week" ↔
      today < d ∧ d ≤ today + (if today % 7 = 6 then 7 else 6 - today % 7) := by
  simp only [getDateSection]
  split_ifs <;> first
    | exact iff_of_true rfl (by omega)
    | exact iff_of_false (by decide) (by omega)

lemma getDateSection_eq_nextWeek_iff (d today : Int) :
    getDateSection (some d) today = "next-week" ↔
      today + (if today % 7 = 6 then 7 else 6 - today % 7) < d ∧
        d ≤ today + (if today % 7 = 0 then 7 else 7 - today % 7) + 6 := by
  simp only [getDateSection]
  split_ifs <;> first
    | exact iff_of_true rfl (by omega)
    | exact iff_of_false (by decide) (by omega)

lemma getDateSection_eq_afterNextWeek_iff (d today : Int) :
    getDateSection (some d) today = "after-next-week" ↔
      today + (if today % 7 = 0 then 7 else 7 - today % 7) + 6 < d := by
  simp only [getDateSection]
  split_ifs <;> first
    | exact iff_of_true rfl (by omega)
    | exact iff_of_false (by decide) (by omega)

/-- The server-side section validation of the reorder handler agrees with the
date-bucketing function evaluated at the explicitly supplied `today`. -/
lemma validateDateInSection_eq_true_iff (today d : Int) (sec : String) :
    validateDateInSection today d sec = true ↔ getDateSection (some d) today = sec := by
  by_cases h0 : sec = "today"
  · subst h0
    simp only [validateDateInSection, String.reduceEq, reduceIte, decide_eq_true_eq]
    exact (getDateSection_eq_today_iff d today).symm
  · by_cases h1 : sec = "this-week"
    · subst h1
      simp only [validateDateInSection, String.reduceEq, reduceIte, decide_eq_true_eq]
      exact (getDateSection_eq_thisWeek_iff d today).symm
    · by_cases h2 : sec = "next-week"
      · subst h2
        simp only [validateDateInSection, String.reduceEq, reduceIte, decide_eq_true_eq]
        exact (getDateSection_eq_nextWeek_iff d today).symm
      · by_cases h3 : sec = "after-next-week"
        · subst h3
          simp only [validateDateInSection, String.reduceEq, reduceIte, decide_eq_true_eq]
          exact (getDateSection_eq_afterNextWeek_iff d today).symm
        · simp only [validateDateInSection, if_neg h0, if_neg h1, if_neg h2, if_neg h3]
          constructor
          · intro h
            exact absurd h (by decide)
          · intro h
            rcases getDateSection_some_mem d today with hm | hm | hm | hm <;>
              rw [hm] at h <;> exact absurd h.symm (by assumption)

lemma reorderTask_eq_of_some {store : Store} {id : String} {t : Task}
    (targetSection : String) (beforeTaskId afterTaskId : Option String)
    (today now : Int) (ht : store id = some t) :
    reorderTask store id targetSection beforeTaskId afterTaskId (some today) now =
      (.ok { t with
              due_date := reorderNewDueDate store t targetSection beforeTaskId today
              is_longer_term := (reorderNewDueDate store t targetSection beforeTaskId today).isNone
              order_rank := computeOrderRank store beforeTaskId afterTaskId now
              updated_at := now },
        fun k => if k = id then
          some { t with
                  due_date := reorderNewDueDate store t targetSection beforeTaskId today
                  is_longer_term :=
                    (reorderNewDueDate store t targetSection beforeTaskId today).isNone
                  order_rank := computeOrderRank store beforeTaskId afterTaskId now
                  updated_at := now }
          else store k) := by
  simp only [reorderTask, ht]

lemma snoozeTask_eq_of_some {store : Store} {id : String} {t : Task}
    (today now : Int) (ht : store id = some t) :
    snoozeTask store id (some today) now =
      (.ok { t with
              due_date := some (max today (t.due_date.getD today) + 1)
              is_longer_term := false
              updated_at := now },
        fun k => if k = id then
          some { t with
                  due_date := some (max today (t.due_date.getD today) + 1)
                  is_longer_term := false
                  updated_at := now }
          else store k) := by
  simp only [snoozeTask, ht]

lemma reorderNewDueDate_inherit {store : Store} {t : Task} {ts bid : String}
    {today : Int} {B : Task} {d : Int}
    (hpf : ts ≠ "personal-focus") (hnt : ts ≠ "today") (hnl : ts ≠ "longer-term")
    (hB : store bid = some B) (hd : B.due_date = some d)
    (hval : validateDateInSection today d ts = true) :
    reorderNewDueDate store t ts (some bid) today = some d := by
  simp only [reorderNewDueDate, if_neg hpf, hB, hd, ne_eq]
  rw [if_pos ⟨hnt, hnl⟩, if_pos hval]

lemma reorderNewDueDate_no_inherit {store : Store} {t : Task} {ts : String}
    {beforeTaskId : Option String} {today : Int}
    (hpf : ts ≠ "personal-focus")
    (hno : ∀ bid B d, beforeTaskId = some bid → ts ≠ "today" → ts ≠ "longer-term" →
        store bid = some B → B.due_date = some d →
        validateDateInSection today d ts = false) :
    reorderNewDueDate store t ts beforeTaskId today =
      (if ts = "today" then some today
       else if ts = "this-week" then some (today + 1)
       else if ts = "next-week" then some (getNextUpcomingSunday today)
       else if ts = "after-next-week" then some (getDayAfterSaturdayAfterNextSunday today)
       else none) := by
  cases beforeTaskId with
  | none => simp only [reorderNewDueDate, if_neg hpf]
  | some bid =>
    by_cases hcond : ts ≠ "today" ∧ ts ≠ "longer-term"
    · cases hsb : store bid with
      | none => simp only [reorderNewDueDate, if_neg hpf, hsb, ite_self]
      | some B =>
        cases hd : B.due_date with
        | none => simp only [reorderNewDueDate, if_neg hpf, hsb, hd, ite_self]
        | some d =>
          have hval := hno bid B d rfl hcond.1 hcond.2 hsb hd
          simp only [reorderNewDueDate, if_neg hpf, hsb, hd, hval, ne_eq,
            Bool.false_eq_true, if_false, ite_self]
    · simp only [reorderNewDueDate, if_neg hpf, ne_eq]
      rw [if_neg hcond]

lemma getNextUpcomingSunday_spec (today : Int) :
    today < getNextUpcomingSunday today ∧ getNextUpcomingSunday today ≤ today + 7
    ∧ getNextUpcomingSunday today % 7 = 0 := by
  simp only [getNextUpcomingSunday]
  split_ifs <;> omega

/-- Fixture: a plain open work task with a set due date. -/
def task1 : Task :=
  { title := "alpha"
    description := ""
    status := "open"
    group := "work"
    task_type := some "regular"
    project_id := none
    due_date := some 5
    is_longer_term := false
    priority := none
    order_rank := 3
    completed_at := none
    archived_at := none
    deleted_at := none
    created_at := 0
    updated_at := 0 }

/-- Fixture: a neighbor task whose due date (day 7, a Sunday seen from day 0)
buckets into `next-week` when `today = 0`. -/
def neighborTask : Task :=
  { task1 with title := "beta", due_date := some 7, order_rank := 10 }

/-- Fixture store holding `task1` under `t1` and `neighborTask` under `b1`. -/
def store2 : Store := fun k =>
  if k = "t1" then some task1 else if k = "b1" then some neighborTask else none

/-- Claim C1: the date-bucketing function classifies a midnight-normalized due
date into exactly one section: `null` to `longer-term`; `d ≤ today` to `today`
(including every overdue date); `today < d ≤ nextSaturday` to `this-week`;
`nextSaturday < d ≤ saturdayAfterNextSunday` to `next-week`; anything later to
`after-next-week` — where `nextSaturday` (resp. `nextSunday`) is the strictly
future next Saturday (resp. Sunday) after `today` (the unique such date in
`(today, today + 7]`, 7 days out when `today` itself has that weekday) and
`saturdayAfterNextSunday = nextSunday + 6`, both boundaries inclusive in the
lower bucket. -/
theorem claim_C1_date_bucketing (today sat sun : Int)
    (hsat1 : today < sat) (hsat2 : sat ≤ today + 7) (hsat3 : sat % 7 = 6)
    (hsun1 : today < sun) (hsun2 : sun ≤ today + 7) (hsun3 : sun % 7 = 0) :
    getDateSection none today = "longer-term"
    ∧ (∀ due : Int, due ≤ today → getDateSection (some due) today = "today")
    ∧ (∀ due : Int, today < due → due ≤ sat → getDateSection (some due) today = "this-week")
    ∧ (∀ due : Int, sat < due → due ≤ sun + 6 → getDateSection (some due) today = "next-week")
    ∧ (∀ due : Int, sun + 6 < due → getDateSection (some due) today = "after-next-week") := by
  refine ⟨rfl, ?_, ?_, ?_, ?_⟩
  · intro due h
    simp only [getDateSection]
    split_ifs <;> first | rfl | (exfalso; omega)
  · intro due h1 h2
    simp only [getDateSection]
    split_ifs <;> first | rfl | (exfalso; omega)
  · intro due h1 h2
    simp only [getDateSection]
    split_ifs <;> first | rfl | (exfalso; omega)
  · intro due h1
    simp only [getDateSection]
    split_ifs <;> first | rfl | (exfalso; omega)

/-- Witness for C1 at `today = 0` (a Sunday), `sat = 6`, `sun = 7`: the five
bucket clauses evaluated at sample dues. -/
theorem claim_C1_date_bucketing_witness :
    getDateSection none 0 = "longer-term"
    ∧ getDateSection (some (-3)) 0 = "today"
    ∧ getDateSection (some 6) 0 = "this-week"
    ∧ getDateSection (some 13) 0 = "next-week"
    ∧ getDateSection (some 14) 0 = "after-next-week" := by
  obtain ⟨h0, h1, h2, h3, h4⟩ :=
    claim_C1_date_bucketing 0 6 7 (by decide) (by decide) (by decide)
      (by decide) (by decide) (by decide)
  exact ⟨h0, h1 (-3) (by decide), h2 6 (by decide) (by decide),
    h3 13 (by decide) (by decide), h4 14 (by decide)⟩

/-- Claim C2: on a successful reorder of an existing task with a valid
`clientToday` and a target section other than `personal-focus`, the new due
date follows the priority rule: a supplied `beforeTaskId` whose loaded
neighbor has a non-null due date that independently buckets into the target
section under the same `clientToday` (and the target section is neither
`today` nor `longer-term`) is inherited exactly; otherwise the section
default applies (`today` → `clientToday`, `this-week` → `clientToday + 1`,
`next-week` → the next strictly-future Sunday, `after-next-week` →
`nextSunday + 7`, `longer-term` → null), where `getNextUpcomingSunday` is the
strictly-future next Sunday (the unique Sunday in `(today, today + 7]`). -/
theorem claim_C2_reorder_due_date (store : Store) (id targetSection : String)
    (beforeTaskId afterTaskId : Option String) (today now : Int)
    (t u : Task) (s2 : Store)
    (ht : store id = some t) (hpf : targetSection ≠ "personal-focus")
    (h : reorderTask store id targetSection beforeTaskId afterTaskId
          (some today) now = (.ok u, s2)) :
    (∀ bid B d, beforeTaskId = some bid → targetSection ≠ "today" →
        targetSection ≠ "longer-term" → store bid = some B → B.due_date = some d →
        getDateSection (some d) today = targetSection → u.due_date = some d)
    ∧ ((¬ ∃ bid, ∃ B, ∃ d, beforeTaskId = some bid ∧ targetSection ≠ "today" ∧
          targetSection ≠ "longer-term" ∧ store bid = some B ∧ B.due_date = some d ∧
          getDateSection (some d) today = targetSection) →
        (targetSection = "today" → u.due_date = some today)
        ∧ (targetSection = "this-week" → u.due_date = some (today + 1))
        ∧ (targetSection = "next-week" → u.due_date = some (getNextUpcomingSunday today))
        ∧ (targetSection = "after-next-week" →
            u.due_date = some (getNextUpcomingSunday today + 7))
        ∧ (targetSection = "longer-term" → u.due_date = none))
    ∧ today < getNextUpcomingSunday today ∧ getNextUpcomingSunday today ≤ today + 7
    ∧ getNextUpcomingSunday today % 7 = 0 := by
  rw [reorderTask_eq_of_some targetSection beforeTaskId afterTaskId today now ht] at h
  have hu : u = { t with
      due_date := reorderNewDueDate store t targetSection beforeTaskId today
      is_longer_term := (reorderNewDueDate store t targetSection beforeTaskId today).isNone
      order_rank := computeOrderRank store beforeTaskId afterTaskId now
      updated_at := now } := by
    have h1 := congrArg Prod.fst h
    simp only [ReorderResult.ok.injEq] at h1
    exact h1.symm
  refine ⟨?_, ?_, getNextUpcomingSunday_spec today⟩
  · intro bid B d hbid hnt hnl hB hd hsec
    subst hbid
    rw [hu]
    show reorderNewDueDate store t targetSection (some bid) today = some d
    exact reorderNewDueDate_inherit hpf hnt hnl hB hd
      ((validateDateInSection_eq_true_iff today d targetSection).mpr hsec)
  · intro hno
    have hdef : reorderNewDueDate store t targetSection beforeTaskId today =
        (if targetSection = "today" then some today
         else if targetSection = "this-week" then some (today + 1)
         else if targetSection = "next-week" then some (getNextUpcomingSunday today)
         else if targetSection = "after-next-week" then
           some (getDayAfterSaturdayAfterNextSunday today)
         else none) := by
      refine reorderNewDueDate_no_inherit hpf ?_
      intro bid B d hbid hnt hnl hB hd
      by_contra hval
      rw [Bool.not_eq_false] at hval
      exact hno ⟨bid, B, d, hbid, hnt, hnl, hB, hd,
        (validateDateInSection_eq_true_iff today d targetSection).mp hval⟩
    have hdue : u.due_date = reorderNewDueDate store t targetSection beforeTaskId today := by
      rw [hu]
    refine ⟨?_, ?_, ?_, ?_, ?_⟩ <;> intro hts <;> subst hts <;>
      rw [hdue, hdef] <;> simp only [String.reduceEq, reduceIte]
    exact congrArg some (by simp only [getDayAfterSaturdayAfterNextSunday]; omega)
  done

/-- Witness for C2: reordering `t1` into `next-week` before neighbor `b1`
(due day 7, which buckets into `next-week` when `today = 0`) inherits due
date 7. -/
theorem claim_C2_reorder_due_date_witness :
    ∃ u s2, reorderTask store2 "t1" "next-week" (some "b1") none (some 0) 99
        = (.ok u, s2) ∧ u.due_date = some 7 := by
  refine ⟨_, _, rfl, ?_⟩
  exact (claim_C2_reorder_due_date store2 "t1" "next-week" (some "b1") none 0 99
      task1 _ _ rfl (by decide) rfl).1 "b1" neighborTask 7 rfl (by decide) (by decide)
      rfl rfl (by decide)

/-- Claim C3: the order-rank allocator returns the arithmetic mean of two
loaded neighbor ranks (strictly between them when `a < b`), `a + 1` with only
a before-neighbor of rank `a`, `b - 1` with only an after-neighbor of rank
`b`, and the current wall-clock timestamp in milliseconds with neither
neighbor — including every case where a referenced neighbor record fails to
load. -/
theorem claim_C3_order_rank_allocator (store : Store) (now : Int) :
    (∀ bid aid B A, store bid = some B → store aid = some A →
        computeOrderRank store (some bid) (some aid) now
            = (B.order_rank + A.order_rank) / 2
        ∧ (B.order_rank < A.order_rank →
            B.order_rank < (B.order_rank + A.order_rank) / 2
            ∧ (B.order_rank + A.order_rank) / 2 < A.order_rank))
    ∧ (∀ bid B, store bid = some B →
        computeOrderRank store (some bid) none now = B.order_rank + 1)
    ∧ (∀ bid aid B, store bid = some B → store aid = none →
        computeOrderRank store (some bid) (some aid) now = B.order_rank + 1)
    ∧ (∀ aid A, store aid = some A →
        computeOrderRank store none (some aid) now = A.order_rank - 1)
    ∧ (∀ bid aid A, store bid = none → store aid = some A →
        computeOrderRank store (some bid) (some aid) now = A.order_rank - 1)
    ∧ computeOrderRank store none none now = (now : Rat)
    ∧ (∀ bid, store bid = none → computeOrderRank store (some bid) none now = (now : Rat))
    ∧ (∀ aid, store aid = none → computeOrderRank store none (some aid) now = (now : Rat))
    ∧ (∀ bid aid, store bid = none → store aid = none →
        computeOrderRank store (some bid) (some aid) now = (now : Rat)) := by
  refine ⟨?_, ?_, ?_, ?_, ?_, rfl, ?_, ?_, ?_⟩
  · intro bid aid B A hB hA
    refine ⟨by simp [computeOrderRank, hB, hA], fun hlt => ⟨by linarith, by linarith⟩⟩
  · intro bid B hB
    simp [computeOrderRank, hB]
  · intro bid aid B hB hA
    simp [computeOrderRank, hB, hA]
  · intro aid A hA
    simp [computeOrderRank, hA]
  · intro bid aid A hB hA
    simp [computeOrderRank, hB, hA]
  · intro bid hB
    simp [computeOrderRank, hB]
  · intro aid hA
    simp [computeOrderRank, hA]
  · intro bid aid hB hA
    simp [computeOrderRank, hB, hA]

/-- Witness for C3 on `store2`: ranks 3 (`t1`) and 10 (`b1`) give mean 13/2
strictly between, before-only gives 4, after-only gives 9, and neither gives
the timestamp 99. -/
theorem claim_C3_order_rank_allocator_witness :
    computeOrderRank store2 (some "t1") (some "b1") 99 = (3 + 10) / 2
    ∧ (3 : Rat) < (3 + 10) / 2 ∧ ((3 : Rat) + 10) / 2 < 10
    ∧ computeOrderRank store2 (some "t1") none 99 = 3 + 1
    ∧ computeOrderRank store2 none (some "b1") 99 = 10 - 1
    ∧ computeOrderRank store2 none none 99 = (99 : Rat) := by
  obtain ⟨h1, h2, _, h4, _, h6, _, _, _⟩ := claim_C3_order_rank_allocator store2 99
  obtain ⟨hm, hb⟩ := h1 "t1" "b1" task1 neighborTask rfl rfl
  obtain ⟨hb1, hb2⟩ := hb (by norm_num [task1, neighborTask])
  exact ⟨hm, hb1, hb2, h2 "t1" task1 rfl, h4 "b1" neighborTask rfl, h6⟩

/-- Claim C4: after every successful reorder, snooze, or partial update that
carries a `due_date` field, the persisted record satisfies
`is_longer_term = (due_date == null)`. -/
theorem claim_C4_is_longer_term_invariant :
    (∀ store id ts bid aid ct now u s2,
        reorderTask store id ts bid aid ct now = (.ok u, s2) →
        s2 id = some u ∧ (u.is_longer_term = true ↔ u.due_date = none))
    ∧ (∀ store id ct now u s2,
        snoozeTask store id ct now = (.ok u, s2) →
        s2 id = some u ∧ (u.is_longer_term = true ↔ u.due_date = none))
    ∧ (∀ store id body now u s2, body.due_date ≠ none →
        updateTask store id body now = (.ok u, s2) →
        s2 id = some u ∧ (u.is_longer_term = true ↔ u.due_date = none)) := by
  refine ⟨?_, ?_, ?_⟩
  · intro store id ts bid aid ct now u s2 h
    cases hsid : store id with
    | none =>
      simp only [reorderTask, hsid] at h
      simp [Prod.mk.injEq] at h
    | some t =>
      cases ct with
      | none =>
        simp only [reorderTask, hsid] at h
        simp [Prod.mk.injEq] at h
      | some today =>
        rw [reorderTask_eq_of_some ts bid aid today now hsid] at h
        rw [Prod.mk.injEq] at h
        obtain ⟨h1, h2⟩ := h
        simp only [ReorderResult.ok.injEq] at h1
        subst h1
        refine ⟨by rw [← h2]; simp, ?_⟩
        exact Option.isNone_iff_eq_none
  · intro store id ct now u s2 h
    cases hsid : store id with
    | none =>
      simp only [snoozeTask, hsid] at h
      simp [Prod.mk.injEq] at h
    | some t =>
      cases ct with
      | none =>
        simp only [snoozeTask, hsid] at h
        simp [Prod.mk.injEq] at h
      | some today =>
        rw [snoozeTask_eq_of_some today now hsid] at h
        rw [Prod.mk.injEq] at h
        obtain ⟨h1, h2⟩ := h
        simp only [ReorderResult.ok.injEq] at h1
        subst h1
        refine ⟨by rw [← h2]; simp, by simp⟩
  · intro store id body now u s2 hne h
    obtain ⟨dd, hdd⟩ : ∃ dd, body.due_date = some dd := Option.ne_none_iff_exists'.mp hne
    cases hsid : store id with
    | none =>
      simp only [updateTask, hsid] at h
      simp [Prod.mk.injEq] at h
    | some t =>
      simp only [updateTask, hsid, hdd] at h
      cases hst : body.status with
      | none =>
        simp only [hst] at h
        rw [Prod.mk.injEq] at h
        obtain ⟨h1, h2⟩ := h
        simp only [ReorderResult.ok.injEq] at h1
        subst h1
        refine ⟨by rw [← h2]; simp, ?_⟩
        exact Option.isNone_iff_eq_none
      | some s =>
        simp only [hst] at h
        split_ifs at h <;>
          · rw [Prod.mk.injEq] at h
            obtain ⟨h1, h2⟩ := h
            simp only [ReorderResult.ok.injEq] at h1
            subst h1
            refine ⟨by rw [← h2]; simp, ?_⟩
            exact Option.isNone_iff_eq_none

/-- Witness for C4: a reorder of `t1` into `longer-term` persists a record
whose `is_longer_term` agrees with its null due date. -/
theorem claim_C4_is_longer_term_invariant_witness :
    ∃ u s2, reorderTask store2 "t1" "longer-term" none none (some 10) 99 = (.ok u, s2)
      ∧ (s2 "t1" = some u ∧ (u.is_longer_term = true ↔ u.due_date = none)) := by
  refine ⟨_, _, rfl, ?_⟩
  exact claim_C4_is_longer_term_invariant.1 store2 "t1" "longer-term" none none
    (some 10) 99 _ _ rfl

/-- Claim C5: a reorder or snooze of an existing task without `clientToday`
fails with a validation error and leaves the store untouched. -/
theorem claim_C5_missing_clientToday_rejected :
    (∀ store id ts bid aid now t, store id = some t →
        reorderTask store id ts bid aid none now = (.validationError, store))
    ∧ (∀ store id now t, store id = some t →
        snoozeTask store id none now = (.validationError, store)) := by
  constructor
  · intro store id ts bid aid now t ht
    simp only [reorderTask, ht]
  · intro store id now t ht
    simp only [snoozeTask, ht]

/-- Witness for C5 on `store2`. -/
theorem claim_C5_missing_clientToday_rejected_witness :
    reorderTask store2 "t1" "today" none none none 99 = (.validationError, store2)
    ∧ snoozeTask store2 "t1" none 99 = (.validationError, store2) :=
  ⟨claim_C5_missing_clientToday_rejected.1 store2 "t1" "today" none none 99 task1 rfl,
   claim_C5_missing_clientToday_rejected.2 store2 "t1" 99 task1 rfl⟩

/-- Fixture: a soft-deleted task (its `deleted_at` is set but the record is
still present in the KV store). -/
def deletedTask : Task := { task1 with deleted_at := some 100 }

/-- Fixture store holding only the soft-deleted task. -/
def storeDel : Store := fun k => if k = "t1" then some deletedTask else none

/-- Counterexample to C6 as stated: reordering a task whose record exists but
is soft-deleted (`deleted_at` set) does NOT fail with NotFound — the handler
only checks record existence — and it does write (the persisted record
changes). -/
theorem claim_C6_counterexample :
    storeDel "t1" = some deletedTask
    ∧ deletedTask.deleted_at = some 100
    ∧ (reorderTask storeDel "t1" "today" none none (some 0) 99).1 ≠ .notFound
    ∧ (reorderTask storeDel "t1" "today" none none (some 0) 99).2 "t1"
        ≠ some deletedTask := by
  refine ⟨rfl, rfl, by decide, by decide⟩

/-- Claim C6 (amended): a reorder fails with NotFound and performs no write
exactly when no record exists under the task id; a record that exists is
used even when soft-deleted, so the operation never returns NotFound for
it. -/
theorem claim_C6_not_found_amended :
    (∀ store id ts bid aid ct now, store id = none →
        reorderTask store id ts bid aid ct now = (.notFound, store))
    ∧ (∀ store id ts bid aid ct now t, store id = some t →
        (reorderTask store id ts bid aid ct now).1 ≠ .notFound) := by
  constructor
  · intro store id ts bid aid ct now hmiss
    simp only [reorderTask, hmiss]
  · intro store id ts bid aid ct now t ht
    cases ct with
    | none => simp [reorderTask, ht]
    | some today => simp [reorderTask, ht]

/-- Witness for the amended C6: a missing id returns NotFound untouched; the
existing (even deletable) `t1` never does. -/
theorem claim_C6_not_found_amended_witness :
    reorderTask store2 "zz" "today" none none (some 0) 99 = (.notFound, store2)
    ∧ (reorderTask store2 "t1" "today" none none (some 0) 99).1 ≠ .notFound :=
  ⟨claim_C6_not_found_amended.1 store2 "zz" "today" none none (some 0) 99 rfl,
   claim_C6_not_found_amended.2 store2 "t1" "today" none none (some 0) 99 task1 rfl⟩

/-- Claim C7: a successful reorder into `personal-focus` preserves the prior
due date exactly, recomputes only the order rank (plus the refreshed
`updated_at` and `is_longer_term` recomputed from the same unchanged due
date), keeps every other field, and persists the result. -/
theorem claim_C7_personal_focus_preserves_due_date (store : Store) (id : String)
    (bid aid : Option String) (today now : Int) (t u : Task) (s2 : Store)
    (ht : store id = some t)
    (h : reorderTask store id "personal-focus" bid aid (some today) now = (.ok u, s2)) :
    u.due_date = t.due_date
    ∧ u.order_rank = computeOrderRank store bid aid now
    ∧ u.is_longer_term = t.due_date.isNone
    ∧ u.updated_at = now
    ∧ u.title = t.title ∧ u.description = t.description ∧ u.status = t.status
    ∧ u.group = t.group ∧ u.task_type = t.task_type ∧ u.project_id = t.project_id
    ∧ u.priority = t.priority ∧ u.completed_at = t.completed_at
    ∧ u.archived_at = t.archived_at ∧ u.deleted_at = t.deleted_at
    ∧ u.created_at = t.created_at
    ∧ s2 id = some u := by
  rw [reorderTask_eq_of_some "personal-focus" bid aid today now ht] at h
  have hpd : reorderNewDueDate store t "personal-focus" bid today = t.due_date := by
    simp [reorderNewDueDate]
  rw [hpd] at h
  rw [Prod.mk.injEq] at h
  obtain ⟨h1, h2⟩ := h
  simp only [ReorderResult.ok.injEq] at h1
  subst h1
  refine ⟨rfl, rfl, rfl, rfl, rfl, rfl, rfl, rfl, rfl, rfl, rfl, rfl, rfl, rfl, rfl, ?_⟩
  rw [← h2]
  simp

/-- Witness for C7: reordering `t1` (due day 5) into `personal-focus` keeps
its due date and takes the empty-section rank 99. -/
theorem claim_C7_personal_focus_preserves_due_date_witness :
    ∃ u s2, reorderTask store2 "t1" "personal-focus" none none (some 0) 99 = (.ok u, s2)
      ∧ u.due_date = task1.due_date ∧ u.order_rank = computeOrderRank store2 none none 99 := by
  refine ⟨_, _, rfl, ?_, ?_⟩
  · exact (claim_C7_personal_focus_preserves_due_date store2 "t1" none none 0 99
      task1 _ _ rfl rfl).1
  · exact (claim_C7_personal_focus_preserves_due_date store2 "t1" none none 0 99
      task1 _ _ rfl rfl).2.1

/-- Claim C8: a successful snooze sets the due date to one day after the
later of `clientToday` and the current due date (`clientToday` when the
current due date is null) and clears `is_longer_term` unconditionally. -/
theorem claim_C8_snooze_due_date (store : Store) (id : String) (today now : Int)
    (t u : Task) (s2 : Store) (ht : store id = some t)
    (h : snoozeTask store id (some today) now = (.ok u, s2)) :
    u.due_date = some (max today (t.due_date.getD today) + 1)
    ∧ u.is_longer_term = false
    ∧ s2 id = some u := by
  rw [snoozeTask_eq_of_some today now ht] at h
  rw [Prod.mk.injEq] at h
  obtain ⟨h1, h2⟩ := h
  simp only [ReorderResult.ok.injEq] at h1
  subst h1
  refine ⟨rfl, rfl, ?_⟩
  rw [← h2]
  simp

/-- Witness for C8: snoozing `t1` (due day 5) at `clientToday = 10` lands on
day 11. -/
theorem claim_C8_snooze_due_date_witness :
    ∃ u s2, snoozeTask store2 "t1" (some 10) 99 = (.ok u, s2)
      ∧ u.due_date = some 11 ∧ u.is_longer_term = false := by
  refine ⟨_, _, rfl, ?_, ?_⟩
  · exact ((claim_C8_snooze_due_date store2 "t1" 10 99 task1 _ _ rfl rfl).1).trans
      (by norm_num [task1])
  · exact (claim_C8_snooze_due_date store2 "t1" 10 99 task1 _ _ rfl rfl).2.1

/-- Counterexample to C9 as stated: the client-side bucketing function
`getDateSection` does read the ambient wall clock (its `today` comes from
`getToday()`, not from a caller argument), so two invocations with the same
`dueDate` at different ambient dates can return different sections. -/
theorem claim_C9_counterexample :
    getDateSection (some 3) 3 ≠ getDateSection (some 3) 0 := by decide

/-- Claim C9 (amended): the server-side date bucketing used by reorder
(`validateDateInSection`) takes the reference date explicitly from
`clientToday` and is a pure function of its explicit inputs, agreeing
exactly with the bucketing algorithm evaluated at that explicit `today`;
only the client-side `getDateSection` derives `today` from the ambient
clock. -/
theorem claim_C9_explicit_today_amended (today d : Int) (sec : String) :
    validateDateInSection today d sec = true ↔ getDateSection (some d) today = sec :=
  validateDateInSection_eq_true_iff today d sec

/-- Fixture: an update body carrying only `is_longer_term` (no `due_date`). -/
def updateBodyIsLongerTermOnly : UpdateBody :=
  { title := none
    description := none
    status := none
    due_date := none
    is_longer_term := some true
    order_rank := none }

/-- Fixture: an update body that sets `due_date` to null. -/
def updateBodyClearDue : UpdateBody :=
  { title := none
    description := none
    status := none
    due_date := some none
    is_longer_term := none
    order_rank := none }

/-- Claim C10 (implicit): the update endpoint recomputes `is_longer_term` as
`(due_date == null)` exactly when the body carries a `due_date` field; a body
carrying `is_longer_term` without `due_date` is merged verbatim, so the
public update interface can persist an `is_longer_term` inconsistent with the
stored due date. -/
theorem claim_C10_update_is_longer_term_guard :
    (∀ store id body now t u s2 dd, store id = some t → body.due_date = some dd →
        updateTask store id body now = (.ok u, s2) →
        u.due_date = dd ∧ u.is_longer_term = dd.isNone)
    ∧ (∀ store id body now t u s2 b, store id = some t → body.due_date = none →
        body.is_longer_term = some b →
        updateTask store id body now = (.ok u, s2) →
        u.is_longer_term = b ∧ u.due_date = t.due_date)
    ∧ (∃ store id body now u,
        (updateTask store id body now).1 = .ok u
        ∧ u.is_longer_term = true ∧ u.due_date ≠ none) := by
  refine ⟨?_, ?_, ?_⟩
  · intro store id body now t u s2 dd ht hdd h
    simp only [updateTask, ht, hdd] at h
    cases hst : body.status with
    | none =>
      simp only [hst] at h
      have h1 := congrArg Prod.fst h
      simp only [ReorderResult.ok.injEq] at h1
      subst h1
      exact ⟨rfl, rfl⟩
    | some s =>
      simp only [hst] at h
      split_ifs at h <;>
        · have h1 := congrArg Prod.fst h
          simp only [ReorderResult.ok.injEq] at h1
          subst h1
          exact ⟨rfl, rfl⟩
  · intro store id body now t u s2 b ht hdd hb h
    simp only [updateTask, ht, hdd, hb] at h
    cases hst : body.status with
    | none =>
      simp only [hst] at h
      have h1 := congrArg Prod.fst h
      simp only [ReorderResult.ok.injEq] at h1
      subst h1
      exact ⟨by simp, by simp⟩
    | some s =>
      simp only [hst] at h
      split_ifs at h <;>
        · have h1 := congrArg Prod.fst h
          simp only [ReorderResult.ok.injEq] at h1
          subst h1
          exact ⟨by simp, by simp⟩
  · exact ⟨store2, "t1", updateBodyIsLongerTermOnly, 50, _, rfl, by decide, by decide⟩

/-- Witness for C10: a body with `due_date = null` on `t1` clears the date
and recomputes `is_longer_term` to true. -/
theorem claim_C10_update_is_longer_term_guard_witness :
    ∃ u s2, updateTask store2 "t1" updateBodyClearDue 50 = (.ok u, s2)
      ∧ (u.due_date = (none : Option Int)
          ∧ u.is_longer_term = (none : Option Int).isNone) := by
  refine ⟨_, _, rfl, ?_⟩
  exact claim_C10_update_is_longer_term_guard.1 store2 "t1" updateBodyClearDue 50
    task1 _ _ none rfl rfl rfl

end ChiefOfStaff
